import Mathlib

/-!
# Verification of `DataReader_Problem5.1_SignalDetection.py`

Shallow embedding of the data-reading script. The script is, in full:

```
data = np.genfromtxt('data_SignalDetection.csv', delimiter = ',', skip_header=1)
print("  Shape of data: ", data.shape)
index = data[:,0].astype(int)
P     = data[:,1]
R     = data[:,2]
freq  = data[:,3]
type  = data[:,4].astype(int)
print(index[0:3]); print(P[0:3]); print(R[0:3]); print(freq[0:3]); print(type[0:3])
```

We model the input file after tokenisation: a file is a list of lines and a
line is a list of tokens, where a token either parses as a number (modelled
by a rational, standing for the decimal literal in the file) or does not.
`np.genfromtxt` with a float dtype turns an unparsable token into NaN
(modelled as `none : Option ℚ`), raises `ValueError` when a data line's
field count differs from the first data line's, returns a 1-D array when
there are zero or one data rows and a 2-D matrix otherwise.  `data[:, j]`
raises `IndexError` on a 1-D array.  `astype(int)` is a C-style cast:
truncation toward zero.
-/

/-- A raw field of the CSV file after splitting on the delimiter: either a
token that parses as a number (`num q`, with `q` the exact value of the
decimal literal) or a token that does not parse (`bad`). -/
inductive Token where
  | num (q : ℚ)
  | bad
deriving DecidableEq, Repr

/-- A cell of the float array produced by `np.genfromtxt`; `none` models NaN
(what `genfromtxt` stores for a token that does not parse as a number). -/
abbrev Cell := Option ℚ

/-- How `np.genfromtxt` converts one raw field with float dtype: a numeric
token keeps its value, anything else becomes NaN. -/
def parseCell : Token → Cell
  | .num q => some q
  | .bad => none

/-- The numpy array returned by `np.genfromtxt`: 1-D for zero or one data
rows (numpy squeezes a single row), 2-D otherwise. -/
inductive NDArray where
  | one (v : List Cell)
  | two (m : List (List Cell))
deriving DecidableEq, Repr

/-- The two failure modes of the script: `parse` models the `ValueError`
that `genfromtxt` raises on inconsistent field counts, `index` models the
`IndexError` raised by `data[:, j]` on a 1-D array. -/
inductive RunError where
  | parse
  | index
deriving DecidableEq, Repr

/-- `np.genfromtxt(path, delimiter=',', skip_header=1)`: drop the header
line, take the field count of the first data line as the column count,
fail with `ValueError` if any later line has a different field count,
otherwise convert every field (unparsable fields become NaN).  Zero or one
data rows yield a 1-D array, two or more a 2-D matrix. -/
def genfromtxt : List (List Token) → Except RunError NDArray
  | [] => .ok (.one [])
  | [_header] => .ok (.one [])
  | _header :: r :: rs =>
    if rs.all (fun row => row.length = r.length) then
      match rs with
      | [] => .ok (.one (r.map parseCell))
      | _ :: _ => .ok (.two ((r :: rs).map (fun row => row.map parseCell)))
    else .error .parse

/-- `data.shape`. -/
def NDArray.shape : NDArray → List ℕ
  | .one v => [v.length]
  | .two m => [m.length, (m.headD []).length]

/-- `data[:, j]`: column extraction.  On a 1-D array numpy raises
`IndexError` (too many indices); on a 2-D array it raises `IndexError`
when `j` is out of bounds for some row. -/
def NDArray.col (a : NDArray) (j : ℕ) : Except RunError (List Cell) :=
  match a with
  | .one _ => .error .index
  | .two m =>
    if m.all (fun row => j < row.length) then
      .ok (m.map (fun row => row.getD j none))
    else .error .index

/-- Truncation toward zero of a rational, the value a C-style cast to `int`
produces: `q.num.tdiv q.den` with `Int.tdiv` (T-division). -/
def trunc (q : ℚ) : ℤ := q.num.tdiv q.den

/-- `astype(int)` on one cell: truncation toward zero for a finite value;
NaN is mapped to the most negative 64-bit integer, which is what numpy's
cast of NaN to a 64-bit `int` yields on the usual platforms. -/
def castInt : Cell → ℤ
  | some q => trunc q
  | none => -(2 ^ 63)

/-- The DataTable of the specification: the five parallel sequences the
script extracts.  `index` and `label` are the integer-cast columns 0 and 4,
the three float columns keep their cells (`none` = NaN). -/
structure DataTable where
  index : List ℤ
  phase : List Cell
  resonance : List Cell
  frequency : List Cell
  label : List ℤ
deriving DecidableEq, Repr

/-- The row count of a DataTable. -/
def DataTable.rowCount (t : DataTable) : ℕ := t.index.length

/-- The column-extraction block of the script: `data[:,0].astype(int)`,
`data[:,1]`, `data[:,2]`, `data[:,3]`, `data[:,4].astype(int)`. -/
def extract (data : NDArray) : Except RunError DataTable := do
  let c0 ← data.col 0
  let c1 ← data.col 1
  let c2 ← data.col 2
  let c3 ← data.col 3
  let c4 ← data.col 4
  .ok { index := c0.map castInt, phase := c1, resonance := c2,
        frequency := c3, label := c4.map castInt }

/-- The `load` operation of the specification: parse the file with
`genfromtxt` and extract the five columns. -/
def load (lines : List (List Token)) : Except RunError DataTable :=
  (genfromtxt lines).bind extract

/-- One line of console output, structurally: the shape line, a printed
integer array, or a printed float array. -/
inductive OutLine where
  | shape (dims : List ℕ)
  | ints (xs : List ℤ)
  | floats (xs : List Cell)
deriving DecidableEq, Repr

/-- The five slice prints `index[0:3]`, `P[0:3]`, `R[0:3]`, `freq[0:3]`,
`type[0:3]`.  Python slicing truncates silently, which `List.take` models
exactly. -/
def inspectSlices (t : DataTable) : List OutLine :=
  [.ints (t.index.take 3), .floats (t.phase.take 3),
   .floats (t.resonance.take 3), .floats (t.frequency.take 3),
   .ints (t.label.take 3)]

/-- The `inspect` operation of the specification: the shape line
`(rowCount, 5)` followed by the five slices. -/
def inspect (t : DataTable) : List OutLine :=
  .shape [t.rowCount, 5] :: inspectSlices t

/-- The whole script, top to bottom: `genfromtxt`, print the shape, extract
the columns, print the five slices.  Returns the console output produced
before any failure, and the error if one was raised. -/
def run (lines : List (List Token)) : List OutLine × Option RunError :=
  match genfromtxt lines with
  | .error e => ([], some e)
  | .ok data =>
    match extract data with
    | .error e => ([.shape data.shape], some e)
    | .ok t => (.shape data.shape :: inspectSlices t, none)

/-- Does a token parse as a number? -/
def Token.isNum : Token → Bool
  | .num _ => true
  | .bad => false

/-- The numeric value of a token (`0` for a non-numeric token; only used
under a `isNum` hypothesis). -/
def Token.val : Token → ℚ
  | .num q => q
  | .bad => 0

/-- The value of field `j` of a data row. -/
def tokVal (r : List Token) (j : ℕ) : ℚ := (r.getD j .bad).val

/-- The cell `genfromtxt` stores for field `j` of a data row. -/
def cellAt (r : List Token) (j : ℕ) : Cell := (r.map parseCell).getD j none

/-- A well-formed data row per the file format: exactly five fields, all
numeric. -/
def wfRow (r : List Token) : Prop := r.length = 5 ∧ ∀ tok ∈ r, tok.isNum

instance (r : List Token) : Decidable (wfRow r) :=
  inferInstanceAs (Decidable (r.length = 5 ∧ ∀ tok ∈ r, tok.isNum = true))

/-- The table `extract` builds from a 2-D matrix whose rows all have at
least five entries. -/
def tableOf (m : List (List Cell)) : DataTable :=
  { index := m.map (fun row => castInt (row.getD 0 none)),
    phase := m.map (fun row => row.getD 1 none),
    resonance := m.map (fun row => row.getD 2 none),
    frequency := m.map (fun row => row.getD 3 none),
    label := m.map (fun row => castInt (row.getD 4 none)) }

/-! ## Concrete fixtures -/

/-- A header line (five non-numeric tokens; skipped, content irrelevant). -/
def headerLine : List Token := [.bad, .bad, .bad, .bad, .bad]

/-- The data rows of the end-to-end example file of the spec. -/
def exampleRows : List (List Token) :=
  [[.num 0, .num (mkRat 12 100), .num (mkRat 150 100), .num (mkRat 4400 10), .num 1],
   [.num 1, .num (mkRat 34 100), .num (mkRat 155 100), .num (mkRat 4412 10), .num 0],
   [.num 2, .num (mkRat 56 100), .num (mkRat 160 100), .num (mkRat 4425 10), .num (-1)],
   [.num 3, .num (mkRat 78 100), .num (mkRat 165 100), .num (mkRat 4431 10), .num 1]]

/-- The end-to-end example file: header plus four data rows. -/
def exampleFile : List (List Token) := headerLine :: exampleRows

/-- The table `load` produces on `exampleFile`. -/
def exampleTable : DataTable :=
  { index := [0, 1, 2, 3],
    phase := [some (mkRat 12 100), some (mkRat 34 100),
              some (mkRat 56 100), some (mkRat 78 100)],
    resonance := [some (mkRat 150 100), some (mkRat 155 100),
                  some (mkRat 160 100), some (mkRat 165 100)],
    frequency := [some (mkRat 4400 10), some (mkRat 4412 10),
                  some (mkRat 4425 10), some (mkRat 4431 10)],
    label := [1, 0, -1, 1] }

/-- The example file with the frequency field of the third data row
replaced by a token that does not parse as a number. -/
def badTokenFile : List (List Token) :=
  [headerLine,
   [.num 0, .num (mkRat 12 100), .num (mkRat 150 100), .num (mkRat 4400 10), .num 1],
   [.num 1, .num (mkRat 34 100), .num (mkRat 155 100), .num (mkRat 4412 10), .num 0],
   [.num 2, .num (mkRat 56 100), .num (mkRat 160 100), .bad, .num (-1)],
   [.num 3, .num (mkRat 78 100), .num (mkRat 165 100), .num (mkRat 4431 10), .num 1]]

/-- The table `load` produces on `badTokenFile`: the unparsable frequency
field is stored as NaN (`none`), everything else as usual. -/
def badTokenTable : DataTable :=
  { index := [0, 1, 2, 3],
    phase := [some (mkRat 12 100), some (mkRat 34 100),
              some (mkRat 56 100), some (mkRat 78 100)],
    resonance := [some (mkRat 150 100), some (mkRat 155 100),
                  some (mkRat 160 100), some (mkRat 165 100)],
    frequency := [some (mkRat 4400 10), some (mkRat 4412 10),
                  none, some (mkRat 4431 10)],
    label := [1, 0, -1, 1] }

/-- Two data rows whose first and last columns hold non-integer numeric
values (-1.7, 2.9, 2.5, -0.5). -/
def fracRows : List (List Token) :=
  [[.num (mkRat (-17) 10), .num 1, .num 1, .num 1, .num (mkRat 29 10)],
   [.num (mkRat 5 2), .num 0, .num 0, .num 0, .num (mkRat (-1) 2)]]

/-! ## Helper lemmas -/

theorem except_bind_ok {ε α β : Type} (a : α) (f : α → Except ε β) :
    (Except.ok a : Except ε α) >>= f = f a := rfl

theorem except_bind_error {ε α β : Type} (e : ε) (f : α → Except ε β) :
    (Except.error e : Except ε α) >>= f = .error e := rfl

theorem bind_ok {ε α β : Type} (a : α) (f : α → Except ε β) :
    (Except.ok a : Except ε α).bind f = f a := rfl

theorem bind_error {ε α β : Type} (e : ε) (f : α → Except ε β) :
    (Except.error e : Except ε α).bind f = .error e := rfl

theorem col_two (m : List (List Cell)) (j : ℕ) (h : ∀ row ∈ m, j < row.length) :
    (NDArray.two m).col j = .ok (m.map (fun row => row.getD j none)) := by
  have hall : m.all (fun row => decide (j < row.length)) = true := by
    simp only [List.all_eq_true, decide_eq_true_eq]
    exact h
  simp [NDArray.col, hall]

theorem extract_two (m : List (List Cell)) (h : ∀ row ∈ m, 4 < row.length) :
    extract (.two m) = .ok (tableOf m) := by
  have h0 := col_two m 0 (fun row hr => by have := h row hr; omega)
  have h1 := col_two m 1 (fun row hr => by have := h row hr; omega)
  have h2 := col_two m 2 (fun row hr => by have := h row hr; omega)
  have h3 := col_two m 3 (fun row hr => by have := h row hr; omega)
  have h4 := col_two m 4 h
  simp [extract, h0, h1, h2, h3, h4, except_bind_ok, tableOf,
    List.map_map, Function.comp]

theorem extract_one (v : List Cell) : extract (.one v) = .error .index := rfl

theorem extract_ok_inv (a : NDArray) (t : DataTable) (h : extract a = .ok t) :
    ∃ m : List (List Cell), a = .two m ∧ t = tableOf m ∧ ∀ row ∈ m, 4 < row.length := by
  cases a with
  | one v => rw [extract_one] at h; cases h
  | two m =>
    by_cases hc : ∀ row ∈ m, 4 < row.length
    · rw [extract_two m hc] at h
      exact ⟨m, rfl, ((Except.ok.injEq _ _).mp h).symm, hc⟩
    · exfalso
      simp only [extract, NDArray.col] at h
      split at h
      · rw [except_bind_ok] at h
        split at h
        · rw [except_bind_ok] at h
          split at h
          · rw [except_bind_ok] at h
            split at h
            · rw [except_bind_ok] at h
              split at h
              · rename_i hall
                exact hc (by simpa using hall)
              · rw [except_bind_error] at h; cases h
            · rw [except_bind_error] at h; cases h
          · rw [except_bind_error] at h; cases h
        · rw [except_bind_error] at h; cases h
      · rw [except_bind_error] at h; cases h

theorem genfromtxt_two (header r1 r2 : List Token) (rs : List (List Token))
    (hc : ∀ row ∈ r2 :: rs, row.length = r1.length) :
    genfromtxt (header :: r1 :: r2 :: rs) =
      .ok (.two ((r1 :: r2 :: rs).map (fun row => row.map parseCell))) := by
  have hall : (r2 :: rs).all (fun row => decide (row.length = r1.length)) = true := by
    simp only [List.all_eq_true, decide_eq_true_eq]
    exact hc
  simp [genfromtxt, hall]

/-- With at least two data rows of a common field count of at least five,
`load` succeeds and returns the table of the parsed matrix. -/
theorem load_eq (header r1 r2 : List Token) (rs : List (List Token))
    (hc : ∀ row ∈ r2 :: rs, row.length = r1.length) (h5 : 4 < r1.length) :
    load (header :: r1 :: r2 :: rs) =
      .ok (tableOf ((r1 :: r2 :: rs).map (fun row => row.map parseCell))) := by
  rw [load, genfromtxt_two header r1 r2 rs hc, bind_ok]
  refine extract_two _ (fun row hr => ?_)
  simp only [List.mem_map] at hr
  obtain ⟨r, hrmem, rfl⟩ := hr
  rw [List.length_map]
  rcases List.mem_cons.mp hrmem with rfl | h
  · omega
  · rw [hc r h]; omega

theorem load_header_only (header : List Token) : load [header] = .error .index := rfl

theorem load_one_row (header r : List Token) : load [header, r] = .error .index := by
  have hg : genfromtxt [header, r] = .ok (.one (r.map parseCell)) := by
    simp [genfromtxt]
  rw [load, hg, bind_ok, extract_one]

/-- Inversion for a successful `load`: the file had a header and at least
two data rows, all of one field count of at least five, and the table is
the parsed matrix. -/
theorem load_ok_inv (lines : List (List Token)) (t : DataTable)
    (h : load lines = .ok t) :
    ∃ header r1 r2 rs, lines = header :: r1 :: r2 :: rs ∧
      (∀ row ∈ r2 :: rs, row.length = r1.length) ∧ 4 < r1.length ∧
      t = tableOf ((r1 :: r2 :: rs).map (fun row => row.map parseCell)) := by
  match lines with
  | [] => cases h
  | [header] => rw [load_header_only] at h; cases h
  | [header, r] => rw [load_one_row] at h; cases h
  | header :: r1 :: r2 :: rs =>
    refine ⟨header, r1, r2, rs, rfl, ?_⟩
    rw [load] at h
    have hgen : ∃ a, genfromtxt (header :: r1 :: r2 :: rs) = .ok a ∧ extract a = .ok t := by
      cases hg : genfromtxt (header :: r1 :: r2 :: rs) with
      | error e => rw [hg, bind_error] at h; cases h
      | ok a => rw [hg, bind_ok] at h; exact ⟨a, rfl, h⟩
    obtain ⟨a, hg, hx⟩ := hgen
    have hcond : (r2 :: rs).all (fun row => decide (row.length = r1.length)) = true := by
      by_contra hfalse
      rw [genfromtxt, if_neg (by simpa using hfalse)] at hg
      cases hg
    have hc : ∀ row ∈ r2 :: rs, row.length = r1.length := by
      simpa using hcond
    have hg2 : a = .two ((r1 :: r2 :: rs).map (fun row => row.map parseCell)) := by
      rw [genfromtxt, if_pos hcond] at hg
      exact (Except.ok.injEq _ _).mp hg.symm
    subst hg2
    obtain ⟨m, hm, ht, hlen⟩ := extract_ok_inv _ _ hx
    obtain rfl := (NDArray.two.injEq _ _).mp hm
    have h51 : 4 < r1.length := by
      have := hlen (r1.map parseCell) (by simp)
      simpa using this
    exact ⟨hc, h51, ht⟩

theorem run_ok (lines : List (List Token)) (a : NDArray) (t : DataTable)
    (hg : genfromtxt lines = .ok a) (hx : extract a = .ok t) :
    run lines = (.shape a.shape :: inspectSlices t, none) := by
  simp only [run, hg, hx]

theorem cellAt_eq (r : List Token) (j : ℕ) (hj : j < r.length)
    (hnum : ∀ tok ∈ r, tok.isNum = true) :
    cellAt r j = some (tokVal r j) := by
  have hj2 : j < (r.map parseCell).length := by rw [List.length_map]; exact hj
  rw [cellAt, tokVal, List.getD_eq_getElem _ _ hj2, List.getD_eq_getElem _ _ hj,
    List.getElem_map]
  have hmem : r.get ⟨j, hj⟩ ∈ r := List.getElem_mem hj
  cases htok : r.get ⟨j, hj⟩ with
  | num q => simp only [List.get_eq_getElem] at htok; rw [htok]; rfl
  | bad =>
    exfalso
    have hn := hnum _ hmem
    simp only [List.get_eq_getElem] at htok hn
    rw [htok] at hn
    cases hn

theorem tableOf_map (rows : List (List Token)) :
    tableOf (rows.map (fun row => row.map parseCell)) =
      { index := rows.map (fun r => castInt (cellAt r 0)),
        phase := rows.map (fun r => cellAt r 1),
        resonance := rows.map (fun r => cellAt r 2),
        frequency := rows.map (fun r => cellAt r 3),
        label := rows.map (fun r => castInt (cellAt r 4)) } := by
  simp [tableOf, cellAt, List.map_map, Function.comp]

theorem trunc_of_nonneg (q : ℚ) (h : 0 ≤ q) : trunc q = ⌊q⌋ := by
  have hnum : 0 ≤ q.num := Rat.num_nonneg.mpr h
  have hden : (0 : ℤ) ≤ (q.den : ℤ) := Int.ofNat_nonneg _
  rw [trunc, Int.tdiv_eq_ediv hnum hden, Rat.floor_def]

theorem trunc_of_nonpos (q : ℚ) (h : q ≤ 0) : trunc q = ⌈q⌉ := by
  have h1 : trunc q = -trunc (-q) := by
    rw [trunc, trunc, Rat.neg_num, Rat.neg_den, Int.neg_tdiv, neg_neg]
  rw [h1, trunc_of_nonneg (-q) (neg_nonneg.mpr h), Int.floor_neg, neg_neg]

/-- `trunc` truncates toward zero: its magnitude is the floor of the
magnitude of the argument, and it has the sign of the argument. -/
theorem trunc_toward_zero (q : ℚ) :
    |(trunc q : ℚ)| ≤ |q| ∧ |q| < |(trunc q : ℚ)| + 1 ∧ 0 ≤ (trunc q : ℚ) * q := by
  rcases le_or_lt 0 q with h | h
  · rw [trunc_of_nonneg q h]
    have h1 : ((⌊q⌋ : ℤ) : ℚ) ≤ q := Int.floor_le q
    have h2 : q < ⌊q⌋ + 1 := Int.lt_floor_add_one q
    have h3 : (0 : ℚ) ≤ ((⌊q⌋ : ℤ) : ℚ) := by
      have : (0 : ℤ) ≤ ⌊q⌋ := Int.floor_nonneg.mpr h
      exact_mod_cast this
    rw [abs_of_nonneg h, abs_of_nonneg h3]
    exact ⟨h1, h2, mul_nonneg h3 h⟩
  · have hle := le_of_lt h
    rw [trunc_of_nonpos q hle]
    have h1 : q ≤ ((⌈q⌉ : ℤ) : ℚ) := Int.le_ceil q
    have h2 : ((⌈q⌉ : ℤ) : ℚ) < q + 1 := Int.ceil_lt_add_one q
    have h3 : ((⌈q⌉ : ℤ) : ℚ) ≤ 0 := by
      have : ⌈q⌉ ≤ (0 : ℤ) := Int.ceil_le.mpr (by exact_mod_cast hle)
      exact_mod_cast this
    rw [abs_of_nonpos hle, abs_of_nonpos h3]
    refine ⟨by linarith, by linarith, ?_⟩
    nlinarith

/-- With a header and at least two data rows of exactly five fields each
(numeric or not), `load` succeeds on the parsed matrix. -/
theorem load_wf (header : List Token) (rows : List (List Token))
    (h2 : 2 ≤ rows.length) (h5 : ∀ r ∈ rows, r.length = 5) :
    load (header :: rows) =
      .ok (tableOf (rows.map (fun row => row.map parseCell))) := by
  rcases rows with _ | ⟨r1, _ | ⟨r2, rs⟩⟩
  · simp at h2
  · simp at h2
  · have hc : ∀ row ∈ r2 :: rs, row.length = r1.length := fun row hrow => by
      rw [h5 row (List.mem_cons_of_mem _ hrow), h5 r1 (List.mem_cons_self _ _)]
    have h51 : 4 < r1.length := by rw [h5 r1 (List.mem_cons_self _ _)]; omega
    exact load_eq header r1 r2 rs hc h51

theorem rowCount_tableOf (rows : List (List Token)) :
    (tableOf (rows.map (fun row => row.map parseCell))).rowCount = rows.length := by
  simp [tableOf, DataTable.rowCount]

/-- On a fully numeric well-formed file, a successful `load` stores in each
column exactly the file's values: columns 0 and 4 truncated to integers,
columns 1-3 kept as numbers. -/
theorem load_columns (header : List Token) (rows : List (List Token)) (t : DataTable)
    (hwf : ∀ r ∈ rows, wfRow r) (hld : load (header :: rows) = .ok t) :
    t.index = rows.map (fun r => trunc (tokVal r 0)) ∧
    t.phase = rows.map (fun r => some (tokVal r 1)) ∧
    t.resonance = rows.map (fun r => some (tokVal r 2)) ∧
    t.frequency = rows.map (fun r => some (tokVal r 3)) ∧
    t.label = rows.map (fun r => trunc (tokVal r 4)) := by
  obtain ⟨header2, r1, r2, rs, heq, hc, h51, ht⟩ := load_ok_inv _ _ hld
  have hrows : rows = r1 :: r2 :: rs := ((List.cons.injEq _ _ _ _).mp heq).2
  subst hrows
  subst ht
  rw [tableOf_map]
  refine ⟨?_, ?_, ?_, ?_, ?_⟩
  · refine List.map_congr_left (fun r hr => ?_)
    obtain ⟨hlen, hnum⟩ := hwf r hr
    rw [cellAt_eq r 0 (by omega) hnum]; rfl
  · refine List.map_congr_left (fun r hr => ?_)
    obtain ⟨hlen, hnum⟩ := hwf r hr
    rw [cellAt_eq r 1 (by omega) hnum]
  · refine List.map_congr_left (fun r hr => ?_)
    obtain ⟨hlen, hnum⟩ := hwf r hr
    rw [cellAt_eq r 2 (by omega) hnum]
  · refine List.map_congr_left (fun r hr => ?_)
    obtain ⟨hlen, hnum⟩ := hwf r hr
    rw [cellAt_eq r 3 (by omega) hnum]
  · refine List.map_congr_left (fun r hr => ?_)
    obtain ⟨hlen, hnum⟩ := hwf r hr
    rw [cellAt_eq r 4 (by omega) hnum]; rfl

/-! ## Claims -/

/-- Claim C1, counterexample: on the spec's own malformed-row example (the
frequency field of the third data row is the non-numeric token `bad`),
`load` does NOT fail with a ParseError: it succeeds and returns a DataTable,
with NaN stored for the unparsable field.  This is `np.genfromtxt`
behaviour: an unparsable token becomes NaN; only an inconsistent field
count raises. -/
theorem c1_counterexample : load badTokenFile = .ok badTokenTable := rfl

/-- Claim C1 (amended): a non-numeric token in a data line does not make
`load` fail.  For any file with a header and at least two data rows of
exactly five fields each — numeric or not — `load` succeeds, and each float
column stores the parsed cell of the file (NaN for non-numeric tokens).
`load` fails with a ParseError only when a data line's field count differs
from the first data line's. -/
theorem c1_nonnumeric_loads (header : List Token) (rows : List (List Token))
    (h2 : 2 ≤ rows.length) (h5 : ∀ r ∈ rows, r.length = 5) :
    ∃ t : DataTable, load (header :: rows) = .ok t ∧ t.rowCount = rows.length ∧
      t.phase = rows.map (fun r => cellAt r 1) ∧
      t.resonance = rows.map (fun r => cellAt r 2) ∧
      t.frequency = rows.map (fun r => cellAt r 3) := by
  refine ⟨_, load_wf header rows h2 h5, rowCount_tableOf rows, ?_⟩
  rw [tableOf_map]
  exact ⟨rfl, rfl, rfl⟩

/-- Claim C1, witness: the amended statement applied to the malformed-row
example file. -/
theorem c1_witness :
    2 ≤ (badTokenFile.drop 1).length ∧
    (∃ t : DataTable, load (headerLine :: badTokenFile.drop 1) = .ok t ∧
      t.rowCount = (badTokenFile.drop 1).length ∧
      t.phase = (badTokenFile.drop 1).map (fun r => cellAt r 1) ∧
      t.resonance = (badTokenFile.drop 1).map (fun r => cellAt r 2) ∧
      t.frequency = (badTokenFile.drop 1).map (fun r => cellAt r 3)) :=
  ⟨by decide, c1_nonnumeric_loads headerLine (badTokenFile.drop 1) (by decide) (by decide)⟩

/-- Claim C2, counterexample: on a file with a header and exactly two data
rows, the script does not fail with an IndexError-equivalent: Python
slicing `x[0:3]` never raises, so the run completes (no error) and prints
all six lines. -/
theorem c2_counterexample :
    (run (headerLine :: fracRows)).2 = none ∧
    (run (headerLine :: fracRows)).1.length = 6 := ⟨rfl, rfl⟩

/-- Claim C2 (amended): for a well-formed file with header and exactly two
data rows, `load` yields `rowCount = 2` and `inspect` does NOT fail: the
script completes with no error, printing the shape line and slices that
simply contain the two available elements of each sequence. -/
theorem c2_small_no_failure (header : List Token) (rows : List (List Token))
    (hlen : rows.length = 2) (hwf : ∀ r ∈ rows, wfRow r) :
    ∃ t : DataTable, load (header :: rows) = .ok t ∧ t.rowCount = 2 ∧
      run (header :: rows) = (inspect t, none) ∧
      inspectSlices t = [.ints t.index, .floats t.phase, .floats t.resonance,
                         .floats t.frequency, .ints t.label] := by
  rcases rows with _ | ⟨r1, _ | ⟨r2, _ | ⟨r3, rs⟩⟩⟩
  · simp at hlen
  · simp at hlen
  · have h5 : ∀ r ∈ [r1, r2], r.length = 5 := fun r hr => (hwf r hr).1
    have hc : ∀ row ∈ [r2], row.length = r1.length := by
      intro row hrow
      rcases List.mem_singleton.mp hrow with rfl
      rw [h5 row (by simp), h5 r1 (by simp)]
    have h51 : 4 < r1.length := by rw [h5 r1 (by simp)]; omega
    have hg := genfromtxt_two header r1 r2 [] hc
    have hlens : ∀ row ∈ ([r1, r2].map (fun row => row.map parseCell)), 4 < row.length := by
      intro row hrow
      simp only [List.mem_map] at hrow
      obtain ⟨r, hrm, rfl⟩ := hrow
      rw [List.length_map, h5 r hrm]; omega
    have hx := extract_two ([r1, r2].map (fun row => row.map parseCell)) hlens
    refine ⟨tableOf ([r1, r2].map (fun row => row.map parseCell)), ?_, rfl, ?_, rfl⟩
    · rw [load, hg, bind_ok]; exact hx
    · rw [run_ok _ _ _ hg hx, inspect]
      have hshape : (NDArray.two ([r1, r2].map (fun row => row.map parseCell))).shape
          = [(tableOf ([r1, r2].map (fun row => row.map parseCell))).rowCount, 5] := by
        simp [NDArray.shape, tableOf, DataTable.rowCount, List.length_map,
          h5 r1 (by simp)]
      rw [hshape]
  · simp at hlen

/-- Claim C2, witness: the amended statement applied to a concrete
header-plus-two-rows file. -/
theorem c2_witness :
    fracRows.length = 2 ∧
    (∃ t : DataTable, load (headerLine :: fracRows) = .ok t ∧ t.rowCount = 2 ∧
      run (headerLine :: fracRows) = (inspect t, none) ∧
      inspectSlices t = [.ints t.index, .floats t.phase, .floats t.resonance,
                         .floats t.frequency, .ints t.label]) :=
  ⟨rfl, c2_small_no_failure headerLine fracRows rfl (by decide)⟩

/-- Claim C3: for every well-formed input file of a header plus N data rows
of exactly five numeric fields each with N ≥ 3, `load` returns a DataTable
with `rowCount = N` and all five sequences of length N (any such N, not
only 120000). -/
theorem c3_load_wellformed (header : List Token) (rows : List (List Token))
    (h3 : 3 ≤ rows.length) (hwf : ∀ r ∈ rows, wfRow r) :
    ∃ t : DataTable, load (header :: rows) = .ok t ∧
      t.rowCount = rows.length ∧ t.index.length = rows.length ∧
      t.phase.length = rows.length ∧ t.resonance.length = rows.length ∧
      t.frequency.length = rows.length ∧ t.label.length = rows.length := by
  have h5 : ∀ r ∈ rows, r.length = 5 := fun r hr => (hwf r hr).1
  refine ⟨_, load_wf header rows (by omega) h5, rowCount_tableOf rows, ?_⟩
  simp [tableOf, List.length_map]

/-- Claim C3, witness: the statement applied to the four-row example file. -/
theorem c3_witness :
    3 ≤ exampleRows.length ∧
    (∃ t : DataTable, load (headerLine :: exampleRows) = .ok t ∧
      t.rowCount = exampleRows.length ∧ t.index.length = exampleRows.length ∧
      t.phase.length = exampleRows.length ∧ t.resonance.length = exampleRows.length ∧
      t.frequency.length = exampleRows.length ∧ t.label.length = exampleRows.length) :=
  ⟨by decide, c3_load_wellformed headerLine exampleRows (by decide) (by decide)⟩

/-- Claim C4: for every well-formed input file, whenever `load` returns a
DataTable, column 0 is stored as `index` cast to integer, column 1 as
`phase`, column 2 as `resonance`, column 3 as `frequency`, and column 4 as
`label` cast to integer — each equal to the value written at that row and
column of the file. -/
theorem c4_column_extraction (header : List Token) (rows : List (List Token))
    (t : DataTable) (hwf : ∀ r ∈ rows, wfRow r)
    (hld : load (header :: rows) = .ok t) :
    t.index = rows.map (fun r => trunc (tokVal r 0)) ∧
    t.phase = rows.map (fun r => some (tokVal r 1)) ∧
    t.resonance = rows.map (fun r => some (tokVal r 2)) ∧
    t.frequency = rows.map (fun r => some (tokVal r 3)) ∧
    t.label = rows.map (fun r => trunc (tokVal r 4)) :=
  load_columns header rows t hwf hld

/-- Claim C4, witness: the statement applied to the example file and the
table `load` computes on it. -/
theorem c4_witness :
    load (headerLine :: exampleRows) = .ok exampleTable ∧
    (exampleTable.index = exampleRows.map (fun r => trunc (tokVal r 0)) ∧
     exampleTable.phase = exampleRows.map (fun r => some (tokVal r 1)) ∧
     exampleTable.resonance = exampleRows.map (fun r => some (tokVal r 2)) ∧
     exampleTable.frequency = exampleRows.map (fun r => some (tokVal r 3)) ∧
     exampleTable.label = exampleRows.map (fun r => trunc (tokVal r 4))) :=
  ⟨rfl, c4_column_extraction headerLine exampleRows exampleTable (by decide) rfl⟩

/-- Claim C5: every DataTable produced by `load` satisfies the invariant
that all five sequences have length equal to `rowCount`.  (The embedding is
purely functional, as is the script: no statement of the script writes to
the arrays after construction, so the table is never mutated.) -/
theorem c5_invariant (lines : List (List Token)) (t : DataTable)
    (hld : load lines = .ok t) :
    t.index.length = t.rowCount ∧ t.phase.length = t.rowCount ∧
    t.resonance.length = t.rowCount ∧ t.frequency.length = t.rowCount ∧
    t.label.length = t.rowCount := by
  obtain ⟨header, r1, r2, rs, heq, hc, h51, ht⟩ := load_ok_inv _ _ hld
  subst ht
  simp [tableOf, DataTable.rowCount, List.length_map]

/-- Claim C5, witness: the invariant instantiated at the example file. -/
theorem c5_witness :
    load exampleFile = .ok exampleTable ∧
    (exampleTable.index.length = exampleTable.rowCount ∧
     exampleTable.phase.length = exampleTable.rowCount ∧
     exampleTable.resonance.length = exampleTable.rowCount ∧
     exampleTable.frequency.length = exampleTable.rowCount ∧
     exampleTable.label.length = exampleTable.rowCount) :=
  ⟨rfl, c5_invariant exampleFile exampleTable rfl⟩

/-- Claim C6: on a successful run over a file of five-field lines, the
script writes exactly six lines: the shape `(rowCount, 5)`, then the first
three elements of `index`, `phase`, `resonance`, `frequency` and `label`,
each slice on its own line, in that order. -/
theorem c6_run_output (header : List Token) (rows : List (List Token))
    (t : DataTable) (h5 : ∀ r ∈ rows, r.length = 5)
    (hld : load (header :: rows) = .ok t) :
    run (header :: rows) = (inspect t, none) ∧ (inspect t).length = 6 ∧
    inspect t = [.shape [t.rowCount, 5], .ints (t.index.take 3),
      .floats (t.phase.take 3), .floats (t.resonance.take 3),
      .floats (t.frequency.take 3), .ints (t.label.take 3)] := by
  obtain ⟨header2, r1, r2, rs, heq, hc, h51, ht⟩ := load_ok_inv _ _ hld
  have hrows : rows = r1 :: r2 :: rs := ((List.cons.injEq _ _ _ _).mp heq).2
  subst hrows
  have hg := genfromtxt_two header r1 r2 rs hc
  have hx : extract (.two ((r1 :: r2 :: rs).map (fun row => row.map parseCell)))
      = .ok t := by
    rw [load, hg, bind_ok] at hld
    exact hld
  refine ⟨?_, rfl, rfl⟩
  rw [run_ok _ _ _ hg hx, inspect]
  have hshape : (NDArray.two ((r1 :: r2 :: rs).map (fun row => row.map parseCell))).shape
      = [t.rowCount, 5] := by
    subst ht
    simp [NDArray.shape, tableOf, DataTable.rowCount, List.length_map,
      h5 r1 (List.mem_cons_self _ _)]
  rw [hshape]

/-- Claim C6, witness: the six output lines at the example file. -/
theorem c6_witness :
    load (headerLine :: exampleRows) = .ok exampleTable ∧
    (run (headerLine :: exampleRows) = (inspect exampleTable, none) ∧
     (inspect exampleTable).length = 6 ∧
     inspect exampleTable = [.shape [exampleTable.rowCount, 5],
       .ints (exampleTable.index.take 3), .floats (exampleTable.phase.take 3),
       .floats (exampleTable.resonance.take 3),
       .floats (exampleTable.frequency.take 3),
       .ints (exampleTable.label.take 3)]) :=
  ⟨rfl, c6_run_output headerLine exampleRows exampleTable (by decide) rfl⟩

/-- Claim C7: `load` is deterministic in the file contents: two calls on
the same lines that both succeed yield identical DataTables.  (The
embedding of the script is a pure function of the parsed file, so this is
immediate.) -/
theorem c7_deterministic (lines : List (List Token)) (t1 t2 : DataTable)
    (h1 : load lines = .ok t1) (h2 : load lines = .ok t2) : t1 = t2 := by
  rw [h1] at h2
  exact (Except.ok.injEq _ _).mp h2

/-- Claim C7, witness: determinism instantiated at the example file. -/
theorem c7_witness :
    load exampleFile = .ok exampleTable ∧ exampleTable = exampleTable :=
  ⟨rfl, c7_deterministic exampleFile exampleTable exampleTable rfl rfl⟩

/-- Claim C8, counterexample: on a file with a header and zero data rows,
`load` itself fails with the IndexError-equivalent — it does NOT succeed
with a `rowCount = 0` table.  `np.genfromtxt` returns an empty 1-D array,
and the column extraction `data[:,0]` raises IndexError before any
DataTable exists; `inspect` is never reached. -/
theorem c8_counterexample :
    load [headerLine] = .error .index ∧
    run [headerLine] = ([.shape [0]], some .index) := ⟨rfl, rfl⟩

/-- Claim C8 (amended): for every file consisting of a single header line
and zero data rows, `load` fails with the IndexError-equivalent during
column extraction (the parsed result is an empty 1-D array), no DataTable
is produced, and the script stops after printing the shape line `(0,)`. -/
theorem c8_empty_file (header : List Token) :
    load [header] = .error .index ∧
    run [header] = ([.shape [0]], some .index) := ⟨rfl, rfl⟩

/-- Claim C9: on a file with a header line and exactly one well-formed data
row of five numeric fields, `np.genfromtxt` produces a one-dimensional
array of length 5 (the single row is squeezed), so the per-column
extraction `data[:,j]` fails with an indexing error and no DataTable is
produced. -/
theorem c9_single_row (header r : List Token) (h5 : r.length = 5)
    (_hnum : ∀ tok ∈ r, tok.isNum) :
    genfromtxt [header, r] = .ok (.one (r.map parseCell)) ∧
    (NDArray.one (r.map parseCell)).shape = [5] ∧
    load [header, r] = .error .index := by
  refine ⟨by simp [genfromtxt], ?_, load_one_row header r⟩
  simp [NDArray.shape, List.length_map, h5]

/-- Claim C9, witness: the single-row failure at a concrete well-formed
row. -/
theorem c9_witness :
    (exampleRows.getD 0 []).length = 5 ∧
    (genfromtxt [headerLine, exampleRows.getD 0 []]
       = .ok (.one ((exampleRows.getD 0 []).map parseCell)) ∧
     (NDArray.one ((exampleRows.getD 0 []).map parseCell)).shape = [5] ∧
     load [headerLine, exampleRows.getD 0 []] = .error .index) :=
  ⟨by decide, c9_single_row headerLine (exampleRows.getD 0 []) (by decide) (by decide)⟩

/-- Claim C10: the integer casts of columns 0 and 4 truncate toward zero:
on any well-formed numeric file (integer-valued or not) with at least two
data rows, `load` succeeds — a non-integer value in those columns is not
rejected — and stores `trunc` of each value, where `trunc` truncates toward
zero: its magnitude never exceeds the value's and falls short by less than
one, and it carries the value's sign. -/
theorem c10_cast_truncates (header : List Token) (rows : List (List Token))
    (h2 : 2 ≤ rows.length) (hwf : ∀ r ∈ rows, wfRow r) :
    (∃ t : DataTable, load (header :: rows) = .ok t ∧
       t.index = rows.map (fun r => trunc (tokVal r 0)) ∧
       t.label = rows.map (fun r => trunc (tokVal r 4))) ∧
    ∀ q : ℚ, |(trunc q : ℚ)| ≤ |q| ∧ |q| < |(trunc q : ℚ)| + 1 ∧
      0 ≤ (trunc q : ℚ) * q := by
  refine ⟨?_, trunc_toward_zero⟩
  have h5 : ∀ r ∈ rows, r.length = 5 := fun r hr => (hwf r hr).1
  have hld := load_wf header rows h2 h5
  obtain ⟨hi, _, _, _, hl⟩ := load_columns header rows _ hwf hld
  exact ⟨_, hld, hi, hl⟩

/-- Claim C10, witness: the truncating casts at a file whose first and last
columns hold -1.7, 2.5, 2.9 and -0.5; the stored integers are -1, 2, 2
and 0. -/
theorem c10_witness :
    (trunc (mkRat (-17) 10) = -1 ∧ trunc (mkRat 29 10) = 2 ∧
     trunc (mkRat 5 2) = 2 ∧ trunc (mkRat (-1) 2) = 0) ∧
    ((∃ t : DataTable, load (headerLine :: fracRows) = .ok t ∧
        t.index = fracRows.map (fun r => trunc (tokVal r 0)) ∧
        t.label = fracRows.map (fun r => trunc (tokVal r 4))) ∧
     ∀ q : ℚ, |(trunc q : ℚ)| ≤ |q| ∧ |q| < |(trunc q : ℚ)| + 1 ∧
       0 ≤ (trunc q : ℚ) * q) :=
  ⟨by decide, c10_cast_truncates headerLine fracRows (by decide) (by decide)⟩
